import Mathlib

/-!
# Verification of the autonomous multi-agent actor runtime

Shallow embedding of `snippets/multi-agent-systems/src/main.rs`: the
`AgentMessage` enum, the per-agent `AgentState`, the `AutonomousAgent`
actor (its `handle_message` dispatcher, `broadcast_to_peers` fan-out,
`register_peer`, and one iteration of the `run` select loop), plus a
network-level delivery model for broadcasts between agents.

The external LLM call (`process_autonomous_task`) is modelled as an
abstract function `TaskProc : String → String → Except String String`
taking the agent's identity and the task text, exactly the data the Rust
method feeds into the prompt.  Side effects of the Rust code are made
explicit: a step returns the new configuration, the list of messages it
broadcast (`outbox`), the list of `(identity, task)` pairs it handed to
the task processor (`calls`), and the lines it printed to
stdout/stderr (`reports`, with `println!`/`eprintln!` format strings
reproduced literally; the one `{:?}` Debug payload is elided).
-/

/-- Message types for inter-agent communication (`enum AgentMessage`). -/
inductive AgentMessage where
  | Task (text : String)
  | Response (from_id : String) (content : String)
  | Trigger (text : String)
  | Shutdown
deriving DecidableEq, Repr

/-- Agent state (`struct AgentState`). -/
structure AgentState where
  task_queue : List String
  conversation_history : List String
deriving DecidableEq, Repr

/-- The actor's loop status: `Running` while `run`'s loop iterates,
`Terminated` once it has broken out. -/
inductive ActorPhase where
  | Running
  | Terminated
deriving DecidableEq, Repr

/-- Actor-based autonomous agent (`struct AutonomousAgent`).  The inbox
is the queue of messages pending in the actor's mpsc receiver;
`peer_channels` holds the indices (into the network's agent list) of the
mailboxes the registered senders point at; `phase` tracks whether the
`run` loop is still iterating. -/
structure AutonomousAgent where
  id : String
  state : AgentState
  inbox : List AgentMessage
  peer_channels : List Nat
  phase : ActorPhase
deriving DecidableEq, Repr

/-- The external task processor (`process_autonomous_task`): given the
agent's identity (used in the preamble) and the task text, returns the
LLM response or a `PromptError` (modelled as a string). -/
def TaskProc : Type := String → String → Except String String

/-- `AutonomousAgent::new`: fresh agent with empty task queue, empty
conversation history, no registered peers, loop not yet broken. -/
def AutonomousAgent.new (id : String) (inbox : List AgentMessage) : AutonomousAgent :=
  { id := id
    state := { task_queue := [], conversation_history := [] }
    inbox := inbox
    peer_channels := []
    phase := ActorPhase.Running }

/-- `AutonomousAgent::register_peer`: push the peer channel onto the
peer list. -/
def AutonomousAgent.register_peer (a : AutonomousAgent) (peer : Nat) : AutonomousAgent :=
  { a with peer_channels := a.peer_channels ++ [peer] }

/-- The history record pushed on completing a `Task`:
`format!("Task: {} | Result: {}", task, result)`. -/
def taskRecord (task result : String) : String :=
  "Task: " ++ task ++ " | Result: " ++ result

/-- The history record pushed on receiving a `Response`:
`format!("From {}: {}", from_id, content)`. -/
def fromRecord (from_id content : String) : String :=
  "From " ++ from_id ++ ": " ++ content

/-- `println!("[{}] Received task: {}", id, task)` -/
def receivedTaskReport (agent_id task : String) : String :=
  "[" ++ agent_id ++ "] Received task: " ++ task

/-- `println!("[{}] Completed task: {}", id, result)` -/
def completedTaskReport (agent_id result : String) : String :=
  "[" ++ agent_id ++ "] Completed task: " ++ result

/-- `eprintln!("[{}] Error processing task: {}", id, e)` -/
def taskErrorReport (agent_id e : String) : String :=
  "[" ++ agent_id ++ "] Error processing task: " ++ e

/-- `println!("[{}] Received response from {}: {}", id, from_id, content)` -/
def receivedResponseReport (agent_id from_id content : String) : String :=
  "[" ++ agent_id ++ "] Received response from " ++ from_id ++ ": " ++ content

/-- `println!("[{}] External trigger: {}", id, trigger_msg)` -/
def triggerReport (agent_id trigger_msg : String) : String :=
  "[" ++ agent_id ++ "] External trigger: " ++ trigger_msg

/-- `println!("Unsupported message variant received: {message:?}")`
(the Debug payload is elided). -/
def unsupportedReport : String := "Unsupported message variant received"

/-- `println!("Shutting down...")` -/
def shutdownReport : String := "Shutting down..."

/-- `println!("[{}] Autonomous tick - checking for self-initiated tasks", id)` -/
def tickReport (agent_id : String) : String :=
  "[" ++ agent_id ++ "] Autonomous tick - checking for self-initiated tasks"

/-- `println!("[{}] Self-initiated summary: {}", id, summary)` -/
def summaryReport (agent_id summary : String) : String :=
  "[" ++ agent_id ++ "] Self-initiated summary: " ++ summary

/-- `eprintln!("[{}] Error in autonomous task: {}", id, e)` -/
def autonomousErrorReport (agent_id e : String) : String :=
  "[" ++ agent_id ++ "] Error in autonomous task: " ++ e

/-- The observable outcome of dispatching one message: the updated
`AgentState`, the messages broadcast to peers, the `(identity, task)`
pairs passed to `process_autonomous_task`, and the printed lines. -/
structure HandleResult where
  state : AgentState
  outbox : List AgentMessage
  calls : List (String × String)
  reports : List String
deriving DecidableEq, Repr

/-- `AutonomousAgent::handle_message`, made pure.  Mirrors the Rust
`match` arm for arm, including the catch-all arm that only logs
"Unsupported message variant received".  The `Trigger` arm calls the
processor and discards its result (`let _ = ...`), so the result does
not appear in any output; the call itself is recorded in `calls`. -/
def handle_message (proc : TaskProc) (agent_id : String) (st : AgentState)
    (msg : AgentMessage) : HandleResult :=
  match msg with
  | AgentMessage.Task task =>
      match proc agent_id task with
      | Except.ok result =>
          { state := { st with conversation_history :=
              st.conversation_history ++ [taskRecord task result] }
            outbox := [AgentMessage.Response agent_id result]
            calls := [(agent_id, task)]
            reports := [receivedTaskReport agent_id task,
                        completedTaskReport agent_id result] }
      | Except.error e =>
          { state := st
            outbox := []
            calls := [(agent_id, task)]
            reports := [receivedTaskReport agent_id task,
                        taskErrorReport agent_id e] }
  | AgentMessage.Response from_id content =>
      { state := { st with conversation_history :=
          st.conversation_history ++ [fromRecord from_id content] }
        outbox := []
        calls := []
        reports := [receivedResponseReport agent_id from_id content] }
  | AgentMessage.Trigger trigger_msg =>
      { state := st
        outbox := []
        calls := [(agent_id, trigger_msg)]
        reports := [triggerReport agent_id trigger_msg] }
  | _ =>
      { state := st
        outbox := []
        calls := []
        reports := [unsupportedReport] }

/-- The fixed self-summarization task issued by the periodic tick. -/
def summaryTask : String := "Summarize what you've accomplished so far in one sentence."

/-- The tick-time guard read under the state lock:
`task_queue.is_empty() && !conversation_history.is_empty()`. -/
def needs_to_create_own_task (st : AgentState) : Bool :=
  st.task_queue.isEmpty && !st.conversation_history.isEmpty

/-- The two event sources of `run`'s `tokio::select!`: the inbox receive
arm and the interval tick arm. -/
inductive ActorEvent where
  | deliver
  | tick
deriving DecidableEq, Repr

/-- Result of one loop iteration: the new agent configuration, the
messages broadcast during the iteration, the `(identity, task)` pairs
handed to the task processor, and the printed lines. -/
structure StepResult where
  agent : AutonomousAgent
  outbox : List AgentMessage
  calls : List (String × String)
  reports : List String
deriving DecidableEq, Repr

/-- One iteration of `AutonomousAgent::run`'s select loop.  A `deliver`
event fires the inbox arm: `Shutdown` breaks the loop at the top-level
match without reaching `handle_message`; any other variant is dispatched
to `handle_message`.  An empty inbox means `recv` is still pending, so
the arm does nothing.  A `tick` event fires the interval arm: the guard
is read under the lock and, when it holds, the fixed summary task is
sent to the processor; its result is only printed, so the state is
untouched either way.  A terminated actor's loop no longer runs, so
every event is a no-op. -/
def actorStep (proc : TaskProc) (a : AutonomousAgent) (ev : ActorEvent) : StepResult :=
  match a.phase with
  | ActorPhase.Terminated => ⟨a, [], [], []⟩
  | ActorPhase.Running =>
      match ev with
      | ActorEvent.deliver =>
          match a.inbox with
          | [] => ⟨a, [], [], []⟩
          | AgentMessage.Shutdown :: rest =>
              ⟨{ a with inbox := rest, phase := ActorPhase.Terminated }, [], [],
               [shutdownReport]⟩
          | msg :: rest =>
              let r := handle_message proc a.id a.state msg
              ⟨{ a with inbox := rest, state := r.state }, r.outbox, r.calls, r.reports⟩
      | ActorEvent.tick =>
          if needs_to_create_own_task a.state then
            match proc a.id summaryTask with
            | Except.ok summary =>
                ⟨a, [], [(a.id, summaryTask)],
                 [tickReport a.id, summaryReport a.id summary]⟩
            | Except.error e =>
                ⟨a, [], [(a.id, summaryTask)],
                 [tickReport a.id, autonomousErrorReport a.id e]⟩
          else
            ⟨a, [], [], [tickReport a.id]⟩

/-- A single `peer.send(message)` in the network: appends to the target
agent's inbox when that agent's loop is still running (its receiver is
alive); when the target has terminated or the index is dangling the send
fails and the error is discarded (`let _ = ... .send(...)`). -/
def sendToPeer (agents : List AutonomousAgent) (j : Nat) (msg : AgentMessage) :
    List AutonomousAgent :=
  match agents[j]? with
  | some b =>
      if b.phase = ActorPhase.Running then
        agents.set j { b with inbox := b.inbox ++ [msg] }
      else agents
  | none => agents

/-- `AutonomousAgent::broadcast_to_peers`: iterate over every registered
peer channel, sending a clone of the message to each; per-peer failures
are ignored and the iteration continues. -/
def broadcast_to_peers (agents : List AutonomousAgent) (peers : List Nat)
    (msg : AgentMessage) : List AutonomousAgent :=
  peers.foldl (fun acc j => sendToPeer acc j msg) agents

/-- One network-level step: agent `i` performs one loop iteration, then
each message it broadcast is fanned out over its peer channels. -/
def networkStep (proc : TaskProc) (agents : List AutonomousAgent) (i : Nat)
    (ev : ActorEvent) : List AutonomousAgent :=
  match agents[i]? with
  | none => agents
  | some a =>
      let r := actorStep proc a ev
      r.outbox.foldl (fun acc m => broadcast_to_peers acc r.agent.peer_channels m)
        (agents.set i r.agent)

/-! ## Helper lemmas on peer delivery -/

theorem broadcast_cons (agents : List AutonomousAgent) (p : Nat) (rest : List Nat)
    (msg : AgentMessage) :
    broadcast_to_peers agents (p :: rest) msg =
      broadcast_to_peers (sendToPeer agents p msg) rest msg := rfl

theorem sendToPeer_getElem_ne (agents : List AutonomousAgent) (j k : Nat)
    (msg : AgentMessage) (h : k ≠ j) :
    (sendToPeer agents j msg)[k]? = agents[k]? := by
  unfold sendToPeer
  cases hj : agents[j]? with
  | none => rfl
  | some b =>
      by_cases hr : b.phase = ActorPhase.Running
      · simp only [hr, if_pos rfl, ite_true]
        exact List.getElem?_set_ne (fun he => h he.symm)
      · simp only [hr, ite_false, if_neg hr]

theorem sendToPeer_getElem_self (agents : List AutonomousAgent) (j : Nat)
    (msg : AgentMessage) (b : AutonomousAgent) (hb : agents[j]? = some b) :
    (sendToPeer agents j msg)[j]? =
      some (if b.phase = ActorPhase.Running then { b with inbox := b.inbox ++ [msg] }
            else b) := by
  unfold sendToPeer
  rw [hb]
  by_cases hr : b.phase = ActorPhase.Running
  · simp only [hr, ite_true, if_pos rfl]
    exact List.getElem?_set_eq_of_lt _ (List.getElem?_eq_some.mp hb).1
  · simp only [hr, ite_false, if_neg hr, hb]

theorem sendToPeer_getElem_map {α : Type} (f : AutonomousAgent → α)
    (hf : ∀ b m, f { b with inbox := b.inbox ++ [m] } = f b)
    (agents : List AutonomousAgent) (j k : Nat) (msg : AgentMessage) :
    ((sendToPeer agents j msg)[k]?).map f = (agents[k]?).map f := by
  by_cases hk : k = j
  · subst hk
    cases hb : agents[k]? with
    | none =>
        have h1 : sendToPeer agents k msg = agents := by
          unfold sendToPeer; rw [hb]
        rw [h1, hb]
    | some b =>
        rw [sendToPeer_getElem_self agents k msg b hb]
        by_cases hr : b.phase = ActorPhase.Running
        · rw [if_pos hr]
          simp only [Option.map_some', hf]
        · rw [if_neg hr]
  · rw [sendToPeer_getElem_ne agents j k msg hk]

theorem broadcast_getElem_map {α : Type} (f : AutonomousAgent → α)
    (hf : ∀ b m, f { b with inbox := b.inbox ++ [m] } = f b)
    (msg : AgentMessage) :
    ∀ (peers : List Nat) (agents : List AutonomousAgent) (k : Nat),
      ((broadcast_to_peers agents peers msg)[k]?).map f = (agents[k]?).map f := by
  intro peers
  induction peers with
  | nil => intro agents k; rfl
  | cons p rest ih =>
      intro agents k
      rw [broadcast_cons, ih (sendToPeer agents p msg) k,
        sendToPeer_getElem_map f hf agents p k msg]

theorem broadcast_getElem_not_mem (msg : AgentMessage) :
    ∀ (peers : List Nat) (agents : List AutonomousAgent) (k : Nat), k ∉ peers →
      (broadcast_to_peers agents peers msg)[k]? = agents[k]? := by
  intro peers
  induction peers with
  | nil => intro agents k _; rfl
  | cons p rest ih =>
      intro agents k hk
      simp only [List.mem_cons, not_or] at hk
      rw [broadcast_cons, ih (sendToPeer agents p msg) k hk.2,
        sendToPeer_getElem_ne agents p k msg hk.1]

theorem broadcast_getElem_mem (msg : AgentMessage) :
    ∀ (peers : List Nat), peers.Nodup →
      ∀ (agents : List AutonomousAgent) (j : Nat) (b : AutonomousAgent),
        j ∈ peers → agents[j]? = some b →
        (broadcast_to_peers agents peers msg)[j]? =
          some (if b.phase = ActorPhase.Running
                then { b with inbox := b.inbox ++ [msg] } else b) := by
  intro peers
  induction peers with
  | nil => intro _ _ _ _ hj; cases hj
  | cons p rest ih =>
      intro hnd agents j b hj hb
      rw [List.nodup_cons] at hnd
      rcases List.mem_cons.mp hj with h | h
      · subst h
        rw [broadcast_cons, broadcast_getElem_not_mem msg rest _ j hnd.1,
          sendToPeer_getElem_self agents j msg b hb]
      · have hjp : j ≠ p := fun he => hnd.1 (he ▸ h)
        rw [broadcast_cons]
        exact ih hnd.2 _ j b h
          (by rw [sendToPeer_getElem_ne agents p j msg hjp]; exact hb)

/-! ## Helper lemmas on records and dispatch -/

theorem taskRecord_ne_fromRecord (t r f c : String) : taskRecord t r ≠ fromRecord f c := by
  intro h
  have h2 : (taskRecord t r).data = (fromRecord f c).data := congrArg String.data h
  simp only [taskRecord, fromRecord, String.data_append] at h2
  simp [List.cons_append] at h2

theorem handle_message_history_append (proc : TaskProc) (agent_id : String)
    (st : AgentState) (msg : AgentMessage) :
    ∃ t, (handle_message proc agent_id st msg).state.conversation_history =
      st.conversation_history ++ t := by
  cases msg with
  | Task task =>
      cases hp : proc agent_id task with
      | ok r => exact ⟨[taskRecord task r], by simp [handle_message, hp]⟩
      | error e => exact ⟨[], by simp [handle_message, hp]⟩
  | Response f c => exact ⟨[fromRecord f c], rfl⟩
  | Trigger m => exact ⟨[], by simp [handle_message]⟩
  | Shutdown => exact ⟨[], by simp [handle_message]⟩

theorem handle_message_task_queue (proc : TaskProc) (agent_id : String)
    (st : AgentState) (msg : AgentMessage) :
    (handle_message proc agent_id st msg).state.task_queue = st.task_queue := by
  cases msg with
  | Task task => cases hp : proc agent_id task <;> simp [handle_message, hp]
  | Response f c => rfl
  | Trigger m => rfl
  | Shutdown => rfl

theorem actorStep_terminated (proc : TaskProc) (a : AutonomousAgent) (ev : ActorEvent)
    (h : a.phase = ActorPhase.Terminated) : actorStep proc a ev = ⟨a, [], [], []⟩ := by
  unfold actorStep
  rw [h]

theorem actorStep_tick_agent (proc : TaskProc) (a : AutonomousAgent) :
    (actorStep proc a ActorEvent.tick).agent = a := by
  unfold actorStep
  cases hph : a.phase with
  | Terminated => rfl
  | Running =>
      by_cases hg : needs_to_create_own_task a.state
      · rw [if_pos hg]
        cases proc a.id summaryTask <;> rfl
      · rw [if_neg hg]

theorem actorStep_history_append (proc : TaskProc) (a : AutonomousAgent) (ev : ActorEvent) :
    ∃ t, (actorStep proc a ev).agent.state.conversation_history =
      a.state.conversation_history ++ t := by
  cases ev with
  | tick => exact ⟨[], by rw [actorStep_tick_agent, List.append_nil]⟩
  | deliver =>
      cases hph : a.phase with
      | Terminated => exact ⟨[], by rw [actorStep_terminated proc a _ hph, List.append_nil]⟩
      | Running =>
          obtain ⟨agent_id, st, inbox, peers, phase⟩ := a
          dsimp only at hph
          subst hph
          cases inbox with
          | nil => exact ⟨[], by simp [actorStep]⟩
          | cons m rest =>
              cases m with
              | Shutdown => exact ⟨[], by simp [actorStep]⟩
              | Task task => exact handle_message_history_append proc agent_id st _
              | Response f c => exact handle_message_history_append proc agent_id st _
              | Trigger m' => exact handle_message_history_append proc agent_id st _

theorem actorStep_task_queue (proc : TaskProc) (a : AutonomousAgent) (ev : ActorEvent) :
    (actorStep proc a ev).agent.state.task_queue = a.state.task_queue := by
  cases ev with
  | tick => rw [actorStep_tick_agent]
  | deliver =>
      cases hph : a.phase with
      | Terminated => rw [actorStep_terminated proc a _ hph]
      | Running =>
          obtain ⟨agent_id, st, inbox, peers, phase⟩ := a
          dsimp only at hph
          subst hph
          cases inbox with
          | nil => rfl
          | cons m rest =>
              cases m with
              | Shutdown => rfl
              | Task task => exact handle_message_task_queue proc agent_id st _
              | Response f c => exact handle_message_task_queue proc agent_id st _
              | Trigger m' => exact handle_message_task_queue proc agent_id st _

/-! ## Witness fixtures -/

def wTickProc : TaskProc := fun _ _ => Except.ok "done"

def wTickAgent : AutonomousAgent :=
  ⟨"A", ⟨[], ["h"]⟩, [], [], ActorPhase.Running⟩

def wFailProc : TaskProc := fun _ _ => Except.error "boom"

/-! ## Claim theorems -/

/-- **C5**: For every `Response(fromIdentity, text)` message received, the
actor appends exactly the record `"From <fromIdentity>: <text>"` to its
history and broadcasts nothing (a `Response` is never propagated beyond
one hop). -/
theorem response_appends_from_record (proc : TaskProc)
    (agent_id from_id content : String) (st : AgentState) :
    handle_message proc agent_id st (AgentMessage.Response from_id content) =
      { state := { st with conversation_history :=
          st.conversation_history ++ [fromRecord from_id content] }
        outbox := []
        calls := []
        reports := [receivedResponseReport agent_id from_id content] } := rfl

/-- **C9**: A message variant the general handler does not expect (the
only possible one being `Shutdown` mis-routed past the loop's top-level
check) is only logged as a warning: the state (history and task queue
alike) is returned unchanged, nothing is broadcast, the processor is not
invoked, and the handler returns normally (no crash; the peer set is not
touched, so the actor keeps running). -/
theorem unsupported_variant_no_state_change (proc : TaskProc) (agent_id : String)
    (st : AgentState) :
    handle_message proc agent_id st AgentMessage.Shutdown =
      { state := st, outbox := [], calls := [], reports := [unsupportedReport] } := rfl

/-- **C4 counterexample**: the claim says a failing TaskProcessor call
on a `Trigger` is reported, but the Rust arm discards the result with
`let _ = ...`: dispatching `Trigger("status check")` under a processor
that fails with "boom" yields an outcome identical, report lines
included, to dispatching it under a processor that succeeds — so no
output of the handler reports the failure; the only line printed is the
trigger-receipt line. -/
theorem trigger_failure_not_reported :
    handle_message wFailProc "B" ⟨[], []⟩ (AgentMessage.Trigger "status check") =
      handle_message (fun _ _ => Except.ok "status: ok") "B" ⟨[], []⟩
        (AgentMessage.Trigger "status check") ∧
    (handle_message wFailProc "B" ⟨[], []⟩
        (AgentMessage.Trigger "status check")).reports =
      [triggerReport "B" "status check"] := ⟨rfl, rfl⟩

/-- **C4 (amended)**: For every `Trigger(text)` message, the actor
invokes TaskProcessor with `(own identity, text)` exactly as for a
`Task`, but never appends anything to history and never broadcasts the
result; the processor's result — success or failure — is discarded, so
on failure nothing beyond the trigger-receipt log line is emitted and
nothing else is done. -/
theorem trigger_discards_result (proc : TaskProc) (agent_id : String)
    (st : AgentState) (m : String) :
    handle_message proc agent_id st (AgentMessage.Trigger m) =
      { state := st
        outbox := []
        calls := [(agent_id, m)]
        reports := [triggerReport agent_id m] } ∧
    (handle_message proc agent_id st (AgentMessage.Trigger m)).calls =
      (handle_message proc agent_id st (AgentMessage.Task m)).calls := by
  refine ⟨rfl, ?_⟩
  cases hp : proc agent_id m <;> simp [handle_message, hp]

/-- **C2**: On each tick of a running actor, the self-summarization task
is handed to the processor exactly when `task_queue` is empty and
`conversation_history` is non-empty at the instant of the check; the
agent configuration is unchanged and nothing is broadcast in either
case, and on success the only output beyond the tick line is the summary
report. -/
theorem tick_self_check_guard (proc : TaskProc) (a : AutonomousAgent)
    (h : a.phase = ActorPhase.Running) :
    ((actorStep proc a ActorEvent.tick).agent = a) ∧
    ((actorStep proc a ActorEvent.tick).outbox = []) ∧
    ((actorStep proc a ActorEvent.tick).calls =
      if needs_to_create_own_task a.state then [(a.id, summaryTask)] else []) ∧
    (needs_to_create_own_task a.state = true ↔
      a.state.task_queue = [] ∧ a.state.conversation_history ≠ []) ∧
    (∀ s, proc a.id summaryTask = Except.ok s →
      needs_to_create_own_task a.state = true →
      (actorStep proc a ActorEvent.tick).reports =
        [tickReport a.id, summaryReport a.id s]) := by
  obtain ⟨agent_id, st, inbox, peers, phase⟩ := a
  dsimp only at h
  subst h
  refine ⟨actorStep_tick_agent proc _, ?_, ?_, ?_, ?_⟩
  · by_cases hg : needs_to_create_own_task st
    · unfold actorStep
      rw [if_pos hg]
      cases proc agent_id summaryTask <;> rfl
    · unfold actorStep
      rw [if_neg hg]
  · by_cases hg : needs_to_create_own_task st
    · unfold actorStep
      rw [if_pos hg, if_pos hg]
      cases proc agent_id summaryTask <;> rfl
    · unfold actorStep
      rw [if_neg hg, if_neg hg]
  · simp only [needs_to_create_own_task, Bool.and_eq_true, Bool.not_eq_true',
      List.isEmpty_iff, List.isEmpty_eq_false]
  · intro s hs hg
    unfold actorStep
    rw [if_pos hg, hs]

theorem tick_self_check_guard_witness :
    (actorStep wTickProc wTickAgent ActorEvent.tick).agent = wTickAgent ∧
    (actorStep wTickProc wTickAgent ActorEvent.tick).calls = [("A", summaryTask)] ∧
    (actorStep wTickProc wTickAgent ActorEvent.tick).reports =
      [tickReport "A", summaryReport "A" "done"] := by
  have h := tick_self_check_guard wTickProc wTickAgent rfl
  refine ⟨h.1, ?_, h.2.2.2.2 "done" rfl (by decide)⟩
  rw [h.2.2.1, if_pos (by decide : needs_to_create_own_task wTickAgent.state = true)]
  rfl

/-- **C3**: For every `Task` message whose processor call fails, the
actor's state is left unchanged and no broadcast is sent for that
message: the failure is only reported, the message is dropped from the
inbox, and the actor keeps its `Running` phase (the failure never
terminates the actor). -/
theorem task_failure_no_mutation (proc : TaskProc) (a : AutonomousAgent)
    (t e : String) (rest : List AgentMessage)
    (hrun : a.phase = ActorPhase.Running)
    (hin : a.inbox = AgentMessage.Task t :: rest)
    (herr : proc a.id t = Except.error e) :
    actorStep proc a ActorEvent.deliver =
      ⟨{ a with inbox := rest }, [], [(a.id, t)],
       [receivedTaskReport a.id t, taskErrorReport a.id e]⟩ := by
  obtain ⟨agent_id, st, inbox, peers, phase⟩ := a
  dsimp only at hrun hin herr ⊢
  subst hrun hin
  simp [actorStep, handle_message, herr]

theorem task_failure_no_mutation_witness :
    actorStep wFailProc (AutonomousAgent.new "A" [AgentMessage.Task "t"])
        ActorEvent.deliver =
      ⟨{ AutonomousAgent.new "A" [AgentMessage.Task "t"] with inbox := [] },
       [], [("A", "t")],
       [receivedTaskReport "A" "t", taskErrorReport "A" "boom"]⟩ :=
  task_failure_no_mutation wFailProc _ "t" "boom" [] rfl rfl rfl

/-- **C6**: The loop reaches `Terminated` exactly when a `Shutdown`
message is at the head of the mailbox on a deliver event (no error,
tick, or empty-channel event ever terminates it); the `Shutdown` is
intercepted at the top of the loop without being dispatched to the
general handler (no processor call, no broadcast), the remaining queued
messages are left unprocessed in the inbox, and once terminated every
subsequent event is a no-op that dispatches nothing. -/
theorem shutdown_only_termination :
    (∀ (proc : TaskProc) (a : AutonomousAgent) (ev : ActorEvent),
      (actorStep proc a ev).agent.phase = ActorPhase.Terminated ↔
        (a.phase = ActorPhase.Terminated ∨
          (ev = ActorEvent.deliver ∧ a.inbox.head? = some AgentMessage.Shutdown))) ∧
    (∀ (proc : TaskProc) (a : AutonomousAgent) (rest : List AgentMessage),
      a.phase = ActorPhase.Running → a.inbox = AgentMessage.Shutdown :: rest →
      actorStep proc a ActorEvent.deliver =
        ⟨{ a with inbox := rest, phase := ActorPhase.Terminated }, [], [],
         [shutdownReport]⟩) ∧
    (∀ (proc : TaskProc) (a : AutonomousAgent) (ev : ActorEvent),
      a.phase = ActorPhase.Terminated → actorStep proc a ev = ⟨a, [], [], []⟩) := by
  refine ⟨?_, ?_, fun proc a ev h => actorStep_terminated proc a ev h⟩
  · intro proc a ev
    obtain ⟨agent_id, st, inbox, peers, phase⟩ := a
    cases phase with
    | Terminated => simp [actorStep]
    | Running =>
        cases ev with
        | tick => simp [actorStep_tick_agent]
        | deliver =>
            cases inbox with
            | nil => simp [actorStep]
            | cons m rest =>
                cases m with
                | Shutdown => simp [actorStep]
                | Task task =>
                    cases hp : proc agent_id task <;>
                      simp [actorStep, handle_message, hp]
                | Response f c => simp [actorStep, handle_message]
                | Trigger m' => simp [actorStep, handle_message]
  · intro proc a rest hrun hin
    obtain ⟨agent_id, st, inbox, peers, phase⟩ := a
    dsimp only at hrun hin ⊢
    subst hrun hin
    rfl

theorem shutdown_only_termination_witness :
    actorStep wTickProc
        (AutonomousAgent.new "A" [AgentMessage.Shutdown, AgentMessage.Task "t"])
        ActorEvent.deliver =
      ⟨{ AutonomousAgent.new "A" [AgentMessage.Shutdown, AgentMessage.Task "t"] with
          inbox := [AgentMessage.Task "t"], phase := ActorPhase.Terminated },
       [], [], [shutdownReport]⟩ ∧
    actorStep wTickProc ⟨"A", ⟨[], []⟩, [AgentMessage.Task "t"], [], ActorPhase.Terminated⟩
        ActorEvent.tick =
      ⟨⟨"A", ⟨[], []⟩, [AgentMessage.Task "t"], [], ActorPhase.Terminated⟩, [], [], []⟩ :=
  ⟨shutdown_only_termination.2.1 wTickProc _ [AgentMessage.Task "t"] rfl rfl,
   shutdown_only_termination.2.2 wTickProc _ ActorEvent.tick rfl⟩

/-- **C8**: `conversation_history` is append-only: every loop iteration
(message dispatch of any variant or periodic tick) extends it at the
tail or leaves it unchanged, peer registration leaves the state
untouched, and a broadcast changes no agent's state (it only appends to
inboxes). -/
theorem history_append_only :
    (∀ (proc : TaskProc) (a : AutonomousAgent) (ev : ActorEvent),
      ∃ t, (actorStep proc a ev).agent.state.conversation_history =
        a.state.conversation_history ++ t) ∧
    (∀ (a : AutonomousAgent) (p : Nat), (a.register_peer p).state = a.state) ∧
    (∀ (agents : List AutonomousAgent) (peers : List Nat) (msg : AgentMessage) (k : Nat),
      ((broadcast_to_peers agents peers msg)[k]?).map (fun b => b.state) =
        (agents[k]?).map (fun b => b.state)) :=
  ⟨actorStep_history_append, fun _ _ => rfl,
   fun agents peers msg k =>
     broadcast_getElem_map (fun b => b.state) (fun _ _ => rfl) msg peers agents k⟩

/-- **C10**: No operation of the runtime ever writes to `task_queue`:
`new` creates it empty, every loop iteration, peer registration and
broadcast preserves it, so for any state with an empty queue the tick
guard `task_queue.is_empty() && !conversation_history.is_empty()`
degenerates to the history being non-empty — the self-summarization task
is issued on every tick once the history is non-empty. -/
theorem task_queue_never_written :
    (∀ (agent_id : String) (inbox : List AgentMessage),
      (AutonomousAgent.new agent_id inbox).state.task_queue = []) ∧
    (∀ (proc : TaskProc) (a : AutonomousAgent) (ev : ActorEvent),
      (actorStep proc a ev).agent.state.task_queue = a.state.task_queue) ∧
    (∀ (a : AutonomousAgent) (p : Nat),
      (a.register_peer p).state.task_queue = a.state.task_queue) ∧
    (∀ (agents : List AutonomousAgent) (peers : List Nat) (msg : AgentMessage) (k : Nat),
      ((broadcast_to_peers agents peers msg)[k]?).map (fun b => b.state.task_queue) =
        (agents[k]?).map (fun b => b.state.task_queue)) ∧
    (∀ st : AgentState, st.task_queue = [] →
      (needs_to_create_own_task st = true ↔ st.conversation_history ≠ [])) := by
  refine ⟨fun _ _ => rfl, actorStep_task_queue, fun _ _ => rfl,
    fun agents peers msg k =>
      broadcast_getElem_map (fun b => b.state.task_queue) (fun _ _ => rfl)
        msg peers agents k, ?_⟩
  intro st h
  simp [needs_to_create_own_task, h, List.isEmpty_iff, List.isEmpty_eq_false]

theorem task_queue_never_written_witness :
    needs_to_create_own_task { task_queue := [], conversation_history := ["x"] } = true :=
  (task_queue_never_written.2.2.2.2 _ rfl).mpr (by decide)

/-- **C7**: `broadcast_to_peers` sends a copy of the message to every
registered peer, filtering none out: every peer whose mailbox is still
being read receives exactly one copy appended to its inbox regardless of
how many other sends fail, every peer whose mailbox is closed is left
unchanged (its send failure is caught and ignored — the broadcast
returns normally and reports nothing), and no agent outside the peer
list is touched. -/
theorem broadcast_sends_to_all_peers (agents : List AutonomousAgent)
    (peers : List Nat) (msg : AgentMessage) (hnd : peers.Nodup) :
    (∀ j b, j ∈ peers → agents[j]? = some b → b.phase = ActorPhase.Running →
      (broadcast_to_peers agents peers msg)[j]? =
        some { b with inbox := b.inbox ++ [msg] }) ∧
    (∀ j b, j ∈ peers → agents[j]? = some b → b.phase ≠ ActorPhase.Running →
      (broadcast_to_peers agents peers msg)[j]? = some b) ∧
    (∀ k, k ∉ peers → (broadcast_to_peers agents peers msg)[k]? = agents[k]?) := by
  refine ⟨?_, ?_, fun k hk => broadcast_getElem_not_mem msg peers agents k hk⟩
  · intro j b hj hb hbrun
    rw [broadcast_getElem_mem msg peers hnd agents j b hj hb, if_pos hbrun]
  · intro j b hj hb hbrun
    rw [broadcast_getElem_mem msg peers hnd agents j b hj hb, if_neg hbrun]

def wStopped : AutonomousAgent := ⟨"A", ⟨[], []⟩, [], [], ActorPhase.Terminated⟩

def wOpen : AutonomousAgent := ⟨"B", ⟨[], []⟩, [], [], ActorPhase.Running⟩

theorem broadcast_sends_to_all_peers_witness :
    (broadcast_to_peers [wStopped, wOpen] [0, 1] AgentMessage.Shutdown)[1]? =
      some { wOpen with inbox := wOpen.inbox ++ [AgentMessage.Shutdown] } ∧
    (broadcast_to_peers [wStopped, wOpen] [0, 1] AgentMessage.Shutdown)[0]? =
      some wStopped :=
  ⟨(broadcast_sends_to_all_peers [wStopped, wOpen] [0, 1] AgentMessage.Shutdown
      (by decide)).1 1 wOpen (by decide) rfl rfl,
   (broadcast_sends_to_all_peers [wStopped, wOpen] [0, 1] AgentMessage.Shutdown
      (by decide)).2.1 0 wStopped (by decide) rfl (by decide)⟩

/-- **C1**: When a running actor dispatches a `Task(t)` whose processor
call succeeds with `r`, it appends `"Task: <t> | Result: <r>"` to its
own history and broadcasts `Response(own identity, r)` to every
registered peer (each running peer's inbox gains exactly that message);
the actor's own inbox gains nothing from the broadcast (it does not hold
a channel to itself), and the one record its history gains is never of
the self-attributed `"From <id>: ..."` shape. -/
theorem task_success_appends_and_broadcasts (proc : TaskProc)
    (agents : List AutonomousAgent) (i : Nat) (a : AutonomousAgent)
    (t r : String) (rest : List AgentMessage)
    (ha : agents[i]? = some a) (hrun : a.phase = ActorPhase.Running)
    (hin : a.inbox = AgentMessage.Task t :: rest)
    (hok : proc a.id t = Except.ok r)
    (hself : i ∉ a.peer_channels) (hnd : a.peer_channels.Nodup) :
    ((networkStep proc agents i ActorEvent.deliver)[i]? =
      some { a with
               inbox := rest
               state := { a.state with conversation_history :=
                 a.state.conversation_history ++ [taskRecord t r] } }) ∧
    (∀ j b, j ∈ a.peer_channels → agents[j]? = some b →
      b.phase = ActorPhase.Running →
      (networkStep proc agents i ActorEvent.deliver)[j]? =
        some { b with inbox := b.inbox ++ [AgentMessage.Response a.id r] }) ∧
    (∀ f c, taskRecord t r ≠ fromRecord f c) := by
  obtain ⟨agent_id, st, inbox0, peers0, phase0⟩ := a
  dsimp only at ha hrun hin hok hself hnd ⊢
  subst hrun hin
  have hlen : i < agents.length := (List.getElem?_eq_some.mp ha).1
  have hnet : networkStep proc agents i ActorEvent.deliver =
      broadcast_to_peers
        (agents.set i
          ⟨agent_id,
           { st with conversation_history :=
               st.conversation_history ++ [taskRecord t r] },
           rest, peers0, ActorPhase.Running⟩)
        peers0 (AgentMessage.Response agent_id r) := by
    unfold networkStep
    rw [ha]
    simp [actorStep, handle_message, hok]
  refine ⟨?_, ?_, fun f c => taskRecord_ne_fromRecord t r f c⟩
  · rw [hnet, broadcast_getElem_not_mem _ _ _ _ hself]
    exact List.getElem?_set_eq_of_lt _ hlen
  · intro j b hj hb hbrun
    have hji : j ≠ i := fun he => hself (he ▸ hj)
    have hbset : (agents.set i
        ⟨agent_id,
         { st with conversation_history :=
             st.conversation_history ++ [taskRecord t r] },
         rest, peers0, ActorPhase.Running⟩)[j]? = some b := by
      rw [List.getElem?_set_ne (fun he => hji he.symm)]
      exact hb
    rw [hnet, broadcast_getElem_mem _ peers0 hnd _ j b hj hbset, if_pos hbrun]

def wNetProc : TaskProc := fun _ _ => Except.ok "benefits: efficiency"

def wAgentA : AutonomousAgent :=
  ⟨"A", ⟨[], []⟩, [AgentMessage.Task "summarize benefits"], [1, 2], ActorPhase.Running⟩

def wAgentB : AutonomousAgent := ⟨"B", ⟨[], []⟩, [], [0, 2], ActorPhase.Running⟩

def wAgentC : AutonomousAgent := ⟨"C", ⟨[], []⟩, [], [0, 1], ActorPhase.Running⟩

theorem task_success_appends_and_broadcasts_witness :
    ((networkStep wNetProc [wAgentA, wAgentB, wAgentC] 0 ActorEvent.deliver)[0]? =
      some { wAgentA with
               inbox := []
               state := { wAgentA.state with conversation_history :=
                 wAgentA.state.conversation_history ++
                   [taskRecord "summarize benefits" "benefits: efficiency"] } }) ∧
    ((networkStep wNetProc [wAgentA, wAgentB, wAgentC] 0 ActorEvent.deliver)[1]? =
      some { wAgentB with inbox :=
        wAgentB.inbox ++ [AgentMessage.Response wAgentA.id "benefits: efficiency"] }) := by
  have h := task_success_appends_and_broadcasts wNetProc [wAgentA, wAgentB, wAgentC] 0
    wAgentA "summarize benefits" "benefits: efficiency" [] rfl rfl rfl rfl
    (by decide) (by decide)
  exact ⟨h.1, h.2.1 1 wAgentB (by decide) rfl rfl⟩
